import Mathlib

/-!
Shallow embedding of `music21/documentation/library/writers.py`: the
idempotent ReST file writer (`ReSTWriter.write`), the notebook conversion
driver (`IPythonNotebookReSTWriter.convertOneNotebook`) with its two-pass
line transformation, and the module-reference index generation
(`ModuleReferenceReSTWriter.run`).

Strings are modelled as Lean `String`; character predicates are the ASCII
cases of Python's (the repository only feeds ASCII markup through them).
The filesystem is a partial map from path strings to a file's text content
and its modification time.  `os.path.abspath` is modelled as the identity:
paths are taken exactly as given.
-/

/-- Python `c.isspace()` on the ASCII whitespace characters. -/
def pyIsSpace (c : Char) : Bool :=
  c == ' ' || c == '\t' || c == '\n' || c == '\r' || c == Char.ofNat 11 || c == Char.ofNat 12

/-- Python truthiness of `len(s.strip())`: the string holds a non-whitespace
character. -/
def hasNonSpace (s : String) : Bool := s.toList.any (fun c => !(pyIsSpace c))

/-- Python `s[0].isspace()` under the source's short-circuit: `false` for the
empty string (the source only asks after `len(s.strip())` is truthy). -/
def headIsSpace (s : String) : Bool :=
  match s.toList with
  | [] => false
  | c :: _ => pyIsSpace c

/-- Occurrence of `needle` as a contiguous run inside `haystack`. -/
def listIsInfix (needle : List Char) : List Char → Bool
  | [] => needle.isEmpty
  | c :: rest => needle.isPrefixOf (c :: rest) || listIsInfix needle rest

/-- Python `sub in s` (substring containment). -/
def strContains (s sub : String) : Bool := listIsInfix sub.toList s.toList

/-- Python `c in s` for a single character. -/
def strContainsChar (s : String) (c : Char) : Bool := s.toList.contains c

/-- Python `s.startswith(pre)`. -/
def pyStartsWith (s pre : String) : Bool := pre.toList.isPrefixOf s.toList

/-- Python `s[n:]` for a character count `n`. -/
def pyDrop (s : String) (n : Nat) : String := String.mk (s.toList.drop n)

/-- One character of the regex class `[\d ]` (an ASCII digit or a space). -/
def digitOrSpace (c : Char) : Bool := c.isDigit || c == ' '

/-- Continuation of `^In\[[\d ]+\]:` once `In[` and one `[\d ]` character are
consumed: zero or more further `[\d ]` characters, then `]:`. -/
def promptTail : List Char → Bool
  | [] => false
  | c :: rest =>
    if digitOrSpace c then promptTail rest
    else c == ']' && (match rest with | c2 :: _ => c2 == ':' | [] => false)

/-- Python `re.compile(r'^In\[[\d ]+\]:').match(line) is not None`
(source line 200): the line starts with `In[`, one or more digits or
spaces, and `]:`; anything may follow. -/
def ipythonPromptMatch (s : String) : Bool :=
  pyStartsWith s "In[" &&
    (match s.toList.drop 3 with
     | [] => false
     | c :: rest => digitOrSpace c && promptTail rest)

/-- The backquote character, written by code point to keep it out of the
source text. -/
def backquote : Char := Char.ofNat 96

/-- The role names of the regex alternation `(class|ref|func|meth)`
(source lines 201-202). -/
def roleNames : List (List Char) :=
  [String.toList "class", String.toList "ref", String.toList "func", String.toList "meth"]

/-- Strip one role name and the following colon from the front of `cs`. -/
def stripRole (cs role : List Char) : Option (List Char) :=
  if role.isPrefixOf cs then
    match cs.drop role.length with
    | ':' :: rest => some rest
    | _ => none
  else none

/-- Match `\:(class|ref|func|meth)\:` at the front of `cs`: the role whose
name and trailing colon lead, and what follows.  The four role names start
with distinct letters, so at most one alternative applies, as in the
regex's left-to-right alternation. -/
def matchRole (cs : List Char) : Option (List Char × List Char) :=
  match cs with
  | ':' :: rest =>
      (roleNames.filterMap (fun role =>
        (stripRole rest role).map (fun r => (role, r)))).head?
  | _ => none

/-- Match the lazy group and closer `(.*?)\`\`?` at the front of `cs`: the
group stops at the first backquote (the earliest point where the closer can
start), the closer takes that backquote and greedily one more.  Returns the
group and what follows the closer. -/
def matchLazyClose : List Char → Option (List Char × List Char)
  | [] => none
  | c :: rest =>
    if c = backquote then
      match rest with
      | c2 :: rest2 => if c2 = backquote then some ([], rest2) else some ([], rest)
      | [] => some ([], [])
    else
      match matchLazyClose rest with
      | some (grp, rem) => some (c :: grp, rem)
      | none => none

/-- Match the opener `\`\`?` then the rest of the pattern: greedily two
backquotes, backtracking to one when the rest of the pattern fails, as the
regex engine does. -/
def matchOpen (cs : List Char) : Option (List Char × List Char) :=
  match cs with
  | c :: rest =>
    if c = backquote then
      match rest with
      | c2 :: rest2 =>
        if c2 = backquote then
          match matchLazyClose rest2 with
          | some r => some r
          | none => matchLazyClose rest
        else matchLazyClose rest
      | [] => matchLazyClose rest
    else none
  | [] => none

/-- One attempt of `r'\:(class|ref|func|meth)\:\`\`?(.*?)\`\`?'` at the head
of `cs`: on a match, the characters of the replacement `r':\1:\`\2\`'` and
the unconsumed rest. -/
def matchMangledAt (cs : List Char) : Option (List Char × List Char) :=
  match matchRole cs with
  | none => none
  | some (role, rest) =>
    match matchOpen rest with
    | none => none
    | some (grp, rem) =>
      some (':' :: (role ++ (':' :: backquote :: (grp ++ [backquote]))), rem)

/-- Python `re.sub` scanning: try the pattern at every position from the
left, emit the replacement and resume after each match.  A match consumes at
least one character, so fuel equal to the character count never runs out. -/
def subMangledAux : Nat → List Char → List Char
  | 0, cs => cs
  | _ + 1, [] => []
  | fuel + 1, c :: cs =>
    match matchMangledAt (c :: cs) with
    | some (rep, rest) => rep ++ subMangledAux fuel rest
    | none => c :: subMangledAux fuel cs

/-- `mangledInternalReference.sub(r':\1:\`\2\`', line)` (source lines
201-202 and 230-233): collapse doubled backquotes around a cross-reference
role's argument. -/
def subMangled (s : String) : String :=
  String.mk (subMangledAux s.toList.length s.toList)

/-- The image-embed directive opening `'.. image:: '` (source line 212). -/
def imageDirectiveStart : String := ".. image:: "

/-- First pass of `convertOneNotebook`'s line loop (source lines 204-235):
an IPython prompt line and its successor are dropped; an image directive
line without a slash gets the image-file directory spliced into its path;
a line holding `# ignore this` and its successor are dropped; every other
line is kept after the cross-reference repair. -/
def processOldLines (imageFileDirectoryName : String) : List String → List String
  | [] => []
  | currentLine :: rest =>
    if ipythonPromptMatch currentLine then
      match rest with
      | [] => []
      | _ :: rest2 => processOldLines imageFileDirectoryName rest2
    else if pyStartsWith currentLine imageDirectiveStart then
      (if !(strContainsChar currentLine '/') then
        imageDirectiveStart ++ imageFileDirectoryName ++ "/" ++ pyDrop currentLine 11
       else currentLine) :: processOldLines imageFileDirectoryName rest
    else if strContains currentLine "# ignore this" then
      match rest with
      | [] => []
      | _ :: rest2 => processOldLines imageFileDirectoryName rest2
    else
      subMangled currentLine :: processOldLines imageFileDirectoryName rest

/-- Condition of the blank-line insertion (source lines 241-244): the first
line is non-blank and starts with whitespace, the second is non-blank and
does not. -/
def blankLineNeeded (first second : String) : Bool :=
  hasNonSpace first && headIsSpace first && hasNonSpace second && !headIsSpace second

/-- Second pass of `convertOneNotebook` (source lines 238-248), walking the
corrected lines pairwise from the given head: a blank line goes in front of
a dedent out of a literal block, and a `:class: ipython-result` line follows
every line holding `.. parsed-literal::`. -/
def smoothPairs : String → List String → List String
  | _, [] => []
  | first, second :: rest =>
    (if blankLineNeeded first second then [""] else []) ++
      second ::
        ((if strContains second ".. parsed-literal::" then ["   :class: ipython-result"] else []) ++
          smoothPairs second rest)

/-- The whole line transformation of `convertOneNotebook` (source lines
203-248): prepend the anchor derived from the notebook name, run the first
pass, then the pairwise smoothing pass. -/
def transformLines (notebookFileNameWithoutExtension : String) (oldLines : List String) : List String :=
  let imageFileDirectoryName := notebookFileNameWithoutExtension ++ "_files"
  let anchor := ".. _" ++ notebookFileNameWithoutExtension ++ ":"
  let corrected := processOldLines imageFileDirectoryName oldLines
  anchor :: smoothPairs anchor corrected

/-- A file on disk: its text content and its modification time. -/
structure FileEntry where
  content : String
  mtime : Nat
deriving DecidableEq

/-- The filesystem: each path holds a file or nothing. -/
abbrev FS := String → Option FileEntry

/-- `ReSTWriter.write` (source lines 34-50): write `rst` to `filePath` only
when no file is there or its content differs.  Returns the filesystem
afterwards and `true` for the `WROTE` report, `false` for `SKIPPED`; a
performed write stamps the current time `now`. -/
def ReSTWriter.write (fs : FS) (now : Nat) (filePath rst : String) : FS × Bool :=
  let shouldWrite : Bool :=
    match fs filePath with
    | none => true
    | some oldFile => !(rst == oldFile.content)
  if shouldWrite then
    (fun p => if p = filePath then some ⟨rst, now⟩ else fs p, true)
  else
    (fs, false)

/-- `os.path.basename` for POSIX paths: everything after the last slash. -/
def pyBasename (p : String) : String :=
  String.mk ((p.toList.reverse.takeWhile (fun c => c ≠ '/')).reverse)

/-- `os.path.dirname` for POSIX paths: everything up to the last slash, the
slash itself kept only when nothing else precedes it. -/
def pyDirname (p : String) : String :=
  let headRev := p.toList.reverse.dropWhile (fun c => c ≠ '/')
  if headRev.all (fun c => c == '/') then String.mk headRev.reverse
  else String.mk ((headRev.dropWhile (fun c => c == '/')).reverse)

/-- Helper of `splitextRoot` over the reversed characters: `some before`
when Python splits at the last dot, `before` being the reversed characters
in front of that dot. -/
def splitextRootAux : List Char → Option (List Char)
  | [] => none
  | c :: rest =>
    if c = '.' then (if rest.any (fun d => d ≠ '.') then some rest else none)
    else splitextRootAux rest

/-- `os.path.splitext(name)[0]` for a bare filename: drop the part from the
last dot on, except when only dots precede that dot (a leading-dot name has
no extension). -/
def splitextRoot (s : String) : String :=
  match splitextRootAux s.toList.reverse with
  | some before => String.mk before.reverse
  | none => s

/-- `os.path.join(a, b)` for the POSIX rules the source exercises. -/
def joinPath (a b : String) : String :=
  if a.toList = [] then b
  else if b.toList.head? = some '/' then b
  else if a.toList.reverse.head? = some '/' then a ++ b
  else a ++ "/" ++ b

/-- The derived output path `<parent>/<name>.rst` of a notebook (source
lines 180-190), with `os.path.abspath` modelled as the identity. -/
def rstPathFor (ipythonNotebookFilePath : String) : String :=
  joinPath (pyDirname ipythonNotebookFilePath)
    (splitextRoot (pyBasename ipythonNotebookFilePath) ++ ".rst")

/-- The observable outcome of `convertOneNotebook`: `skipped` models
`return False`, `error` models raising `DocumentationWritersException`, and
`converted path content` models `return True` after writing `content` to
`path`. -/
inductive ConvertResult where
  | skipped : ConvertResult
  | error : String → ConvertResult
  | converted : String → String → ConvertResult
deriving DecidableEq

/-- Helper of `pySplitlines`: split characters at every line feed. -/
def splitLinesAux (acc : List Char) : List Char → List String
  | [] => [String.mk acc.reverse]
  | c :: rest =>
    if c = '\n' then String.mk acc.reverse :: splitLinesAux [] rest
    else splitLinesAux (c :: acc) rest

/-- Python `s.splitlines()` for line-feed separated text: no piece for the
empty string, and no empty final piece for text ending in a line feed. -/
def pySplitlines (s : String) : List String :=
  match s.toList with
  | [] => []
  | cs =>
    let parts := splitLinesAux [] cs
    if cs.reverse.head? = some '\n' then parts.dropLast else parts

/-- `IPythonNotebookReSTWriter.convertOneNotebook` (source lines 166-253).
`nbConvertOutput` stands for the raw ReST text the external `nbconvert`
run leaves at the output path; the returned flag is `true` exactly when
`runNBConvert` is invoked.  The checkpoint test comes first, then the
existence test, then the staleness test against the output's modification
time; only past all three does the conversion run and the transformed text
get written. -/
def convertOneNotebook (fs : FS) (nbConvertOutput ipythonNotebookFilePath : String) :
    ConvertResult × Bool :=
  if strContains ipythonNotebookFilePath "-checkpoint" then (ConvertResult.skipped, false)
  else
    match fs ipythonNotebookFilePath with
    | none =>
      (ConvertResult.error ("No iPythonNotebook with filePath " ++ ipythonNotebookFilePath), false)
    | some notebookFile =>
      let rstFilePath := rstPathFor ipythonNotebookFilePath
      let stale : Bool :=
        match fs rstFilePath with
        | some rstFile => decide (notebookFile.mtime < rstFile.mtime)
        | none => false
      if stale then (ConvertResult.skipped, false)
      else
        let oldLines := pySplitlines nbConvertOutput
        let lines := transformLines (splitextRoot (pyBasename ipythonNotebookFilePath)) oldLines
        (ConvertResult.converted rstFilePath (String.intercalate "\n" lines), true)

/-- The fixed header of the generated module-reference index (source lines
82-92). -/
def moduleReferenceIndexHeader : List String :=
  [".. moduleReference:", "", ".. WARNING: DO NOT EDIT THIS FILE:",
   "   AUTOMATICALLY GENERATED.", "", "Module Reference", "================", "",
   ".. toctree::", "   :maxdepth: 1", ""]

/-- Python `sorted` on strings: the stable ascending sort by the string
order (lexicographic by code point). -/
def pySorted (names : List String) : List String :=
  names.mergeSort (fun a b => decide (a ≤ b))

/-- The lines of the generated `index.rst` of `ModuleReferenceReSTWriter.run`
(source lines 81-94): the fixed header, then one indented entry per
reference name in sorted order. -/
def moduleReferenceIndexLines (referenceNames : List String) : List String :=
  moduleReferenceIndexHeader ++
    (pySorted referenceNames).map (fun referenceName => "   " ++ referenceName)

/-! Helper lemmas shared by the claim theorems. -/

/-- A string literally extended on the right starts with itself. -/
theorem pyStartsWith_append (pre s : String) : pyStartsWith (pre ++ s) pre = true := by
  unfold pyStartsWith
  rw [show (pre ++ s).toList = pre.toList ++ s.toList from String.data_append pre s]
  exact List.isPrefixOf_iff_prefix.mpr (List.prefix_append _ _)

/-- `pySorted` output is sorted by the string order. -/
theorem pySorted_sorted (l : List String) :
    List.Sorted (fun a b : String => a ≤ b) (pySorted l) := by
  have h := @List.sorted_mergeSort String (fun a b : String => decide (a ≤ b))
    (fun a b c hab hbc => by
      simp only [decide_eq_true_eq] at *
      exact le_trans hab hbc)
    (fun a b => by
      simp only [Bool.or_eq_true, decide_eq_true_eq]
      exact le_total a b) l
  exact List.Pairwise.imp (fun h => of_decide_eq_true h) h

/-- `pySorted` output is a permutation of its input. -/
theorem pySorted_perm (l : List String) : List.Perm (pySorted l) l :=
  List.mergeSort_perm l _

/-- Claim C1: `ReSTWriter.write` writes exactly when no file is at the path
or the existing content differs from the new content; a Written outcome
leaves exactly the new content at the path, and a Skipped outcome performs
no write, leaving the whole filesystem unchanged. -/
theorem write_written_iff_content_differs (fs : FS) (now : Nat) (filePath rst : String) :
    ((ReSTWriter.write fs now filePath rst).2 = true ↔
        fs filePath = none ∨ ∃ old, fs filePath = some old ∧ old.content ≠ rst)
      ∧ ((ReSTWriter.write fs now filePath rst).2 = true →
          (ReSTWriter.write fs now filePath rst).1 filePath = some ⟨rst, now⟩)
      ∧ ((ReSTWriter.write fs now filePath rst).2 = false →
          (ReSTWriter.write fs now filePath rst).1 = fs) := by
  unfold ReSTWriter.write
  cases h : fs filePath with
  | none => simp [h]
  | some oldFile =>
    by_cases heq : rst = oldFile.content
    · simp [h, heq]
    · simp [h, heq, Ne.symm heq]

/-- Claim C6: writing content identical to what the file already holds is a
skip that leaves the filesystem, the file and its modification time
untouched. -/
theorem write_identical_content_skips (fs : FS) (now : Nat) (filePath C : String)
    (old : FileEntry) (hex : fs filePath = some old) (heq : old.content = C) :
    ReSTWriter.write fs now filePath C = (fs, false) := by
  unfold ReSTWriter.write
  simp [hex, heq]

/-- A one-file filesystem used by concrete witnesses. -/
def exampleFS : FS := fun p => if p = "doc.rst" then some ⟨"body", 7⟩ else none

/-- Claim C6 witness: re-writing "body" over a file already holding "body"
returns the filesystem unchanged and reports Skipped. -/
theorem write_identical_content_skips_witness :
    ReSTWriter.write exampleFS 9 "doc.rst" "body" = (exampleFS, false) :=
  write_identical_content_skips exampleFS 9 "doc.rst" "body" ⟨"body", 7⟩ (by decide) rfl

/-- Claim C2 counterexample: the path "x-checkpoint.ipynb" exists nowhere in
the empty filesystem, yet `convertOneNotebook` returns Skipped instead of
raising the Missing-Input error, because the checkpoint test runs first. -/
theorem convertOneNotebook_missing_checkpoint_skips :
    (fun _ => none : FS) "x-checkpoint.ipynb" = none ∧
      convertOneNotebook (fun _ => none) "" "x-checkpoint.ipynb" =
        (ConvertResult.skipped, false) := by
  exact ⟨rfl, by decide⟩

/-- Claim C2 (amended): for every requested notebook path whose name does
not contain "-checkpoint", a missing input is the Missing-Input error, not a
skip. -/
theorem convertOneNotebook_missing_nonCheckpoint_raises (fs : FS) (out path : String)
    (hcp : strContains path "-checkpoint" = false) (hmiss : fs path = none) :
    convertOneNotebook fs out path =
      (ConvertResult.error ("No iPythonNotebook with filePath " ++ path), false) := by
  unfold convertOneNotebook
  simp [hcp, hmiss]

/-- Claim C2 witness: the missing non-checkpoint path "nb.ipynb" raises. -/
theorem convertOneNotebook_missing_nonCheckpoint_raises_witness :
    convertOneNotebook (fun _ => none) "" "nb.ipynb" =
      (ConvertResult.error ("No iPythonNotebook with filePath " ++ "nb.ipynb"), false) :=
  convertOneNotebook_missing_nonCheckpoint_raises (fun _ => none) "" "nb.ipynb" (by decide) rfl

/-- Claim C3: every path containing "-checkpoint" yields Skipped, and the
external converter is not invoked (the invocation flag is `false`). -/
theorem convertOneNotebook_checkpoint_always_skipped (fs : FS) (out path : String)
    (h : strContains path "-checkpoint" = true) :
    convertOneNotebook fs out path = (ConvertResult.skipped, false) := by
  unfold convertOneNotebook
  simp [h]

/-- A filesystem holding an existing checkpoint notebook, for the C3 witness. -/
def checkpointFS : FS :=
  fun p => if p = "note-checkpoint.ipynb" then some ⟨"cells", 3⟩ else none

/-- Claim C3 witness: an existing checkpoint notebook is skipped without
conversion. -/
theorem convertOneNotebook_checkpoint_always_skipped_witness :
    convertOneNotebook checkpointFS "raw" "note-checkpoint.ipynb" =
      (ConvertResult.skipped, false) :=
  convertOneNotebook_checkpoint_always_skipped checkpointFS "raw" "note-checkpoint.ipynb"
    (by decide)

/-- Claim C4: for a path containing "-checkpoint" that exists nowhere, the
checkpoint test precedes the existence test, so the outcome is Skipped and
the Missing-Input error is never raised. -/
theorem convertOneNotebook_checkpoint_precedes_existence (fs : FS) (out path : String)
    (hcp : strContains path "-checkpoint" = true) (_hmiss : fs path = none) :
    convertOneNotebook fs out path = (ConvertResult.skipped, false) ∧
      ∀ msg, convertOneNotebook fs out path ≠ (ConvertResult.error msg, false) := by
  have hres : convertOneNotebook fs out path = (ConvertResult.skipped, false) := by
    unfold convertOneNotebook
    simp [hcp]
  refine ⟨hres, fun msg hcontra => ?_⟩
  rw [hres] at hcontra
  exact ConvertResult.noConfusion (congrArg Prod.fst hcontra)

/-- Claim C4 witness: the nonexistent checkpoint path "ghost-checkpoint.ipynb"
is skipped and raises nothing. -/
theorem convertOneNotebook_checkpoint_precedes_existence_witness :
    convertOneNotebook (fun _ => none) "" "ghost-checkpoint.ipynb" =
        (ConvertResult.skipped, false) ∧
      ∀ msg, convertOneNotebook (fun _ => none) "" "ghost-checkpoint.ipynb" ≠
        (ConvertResult.error msg, false) :=
  convertOneNotebook_checkpoint_precedes_existence (fun _ => none) "" "ghost-checkpoint.ipynb"
    (by decide) rfl

/-- Claim C5: for an existing non-checkpoint notebook whose output `.rst`
file exists with a strictly newer modification time, the conversion is
Skipped before the external converter is ever invoked. -/
theorem convertOneNotebook_stale_rst_skips (fs : FS) (out path : String)
    (notebookFile rstFile : FileEntry)
    (hcp : strContains path "-checkpoint" = false)
    (hnb : fs path = some notebookFile)
    (hrst : fs (rstPathFor path) = some rstFile)
    (hmt : notebookFile.mtime < rstFile.mtime) :
    convertOneNotebook fs out path = (ConvertResult.skipped, false) := by
  unfold convertOneNotebook
  simp [hcp, hnb, hrst, hmt]

/-- A filesystem with a notebook and a newer generated output, for the C5
witness. -/
def staleFS : FS := fun p =>
  if p = "/docs/nb.ipynb" then some ⟨"cells", 5⟩
  else if p = "/docs/nb.rst" then some ⟨"old rst", 9⟩
  else none

/-- Claim C5 witness: "/docs/nb.ipynb" (mtime 5) with "/docs/nb.rst"
(mtime 9) is skipped. -/
theorem convertOneNotebook_stale_rst_skips_witness :
    convertOneNotebook staleFS "raw" "/docs/nb.ipynb" = (ConvertResult.skipped, false) :=
  convertOneNotebook_stale_rst_skips staleFS "raw" "/docs/nb.ipynb" ⟨"cells", 5⟩ ⟨"old rst", 9⟩
    (by decide) (by decide) (by decide) (by decide)

/-- Claim C7: a line matching the input-prompt pattern makes the first pass
drop that line and the next; on raw lines "In[1]:", "code", "result" with
unit name "u" the transformer yields the anchor line followed by "result". -/
theorem transform_prompt_line_drops_pair :
    (∀ (imageFileDirectoryName promptLine nextLine : String) (rest : List String),
        ipythonPromptMatch promptLine = true →
        processOldLines imageFileDirectoryName (promptLine :: nextLine :: rest) =
          processOldLines imageFileDirectoryName rest)
      ∧ transformLines "u" ["In[1]:", "code", "result"] = [".. _u:", "result"] := by
  constructor
  · intro dir promptLine nextLine rest h
    simp [processOldLines, h]
  · decide

/-- Claim C8: an image directive whose filename has no path separator is
rewritten to point into `<unitName>_files/`; one with a separator passes
through unchanged; concretely ".. image:: foo.png" becomes
".. image:: u_files/foo.png" and ".. image:: sub/foo.png" is unchanged. -/
theorem transform_image_directive_rewrite :
    (∀ (imageFileDirectoryName imageFileName : String) (rest : List String),
        strContainsChar imageFileName '/' = false →
        processOldLines imageFileDirectoryName
            ((imageDirectiveStart ++ imageFileName) :: rest) =
          (imageDirectiveStart ++ imageFileDirectoryName ++ "/" ++ imageFileName) ::
            processOldLines imageFileDirectoryName rest)
      ∧ (∀ (imageFileDirectoryName imageFileName : String) (rest : List String),
        strContainsChar imageFileName '/' = true →
        processOldLines imageFileDirectoryName
            ((imageDirectiveStart ++ imageFileName) :: rest) =
          (imageDirectiveStart ++ imageFileName) ::
            processOldLines imageFileDirectoryName rest)
      ∧ transformLines "u" [".. image:: foo.png"] = [".. _u:", ".. image:: u_files/foo.png"]
      ∧ transformLines "u" [".. image:: sub/foo.png"] = [".. _u:", ".. image:: sub/foo.png"] := by
  refine ⟨?_, ?_, by decide, by decide⟩
  · intro dir f rest h
    have hpm : ipythonPromptMatch (imageDirectiveStart ++ f) = false := rfl
    have hsw : pyStartsWith (imageDirectiveStart ++ f) imageDirectiveStart = true :=
      pyStartsWith_append imageDirectiveStart f
    have hcc : strContainsChar (imageDirectiveStart ++ f) '/' = false := h
    have hdrop : pyDrop (imageDirectiveStart ++ f) 11 = f := rfl
    rw [processOldLines.eq_def]
    simp only [hpm, hsw, hcc, hdrop]
    simp
  · intro dir f rest h
    have hpm : ipythonPromptMatch (imageDirectiveStart ++ f) = false := rfl
    have hsw : pyStartsWith (imageDirectiveStart ++ f) imageDirectiveStart = true :=
      pyStartsWith_append imageDirectiveStart f
    have hcc : strContainsChar (imageDirectiveStart ++ f) '/' = true := h
    rw [processOldLines.eq_def]
    simp only [hpm, hsw, hcc]
    simp

/-- Claim C9 counterexample: the corrected line "   " begins with whitespace
and is followed by the non-blank, non-indented "Next paragraph", yet no
blank line is inserted between them, because the source also requires the
first line to be non-blank. -/
theorem transform_blank_line_counterexample :
    headIsSpace "   " = true ∧ hasNonSpace "Next paragraph" = true ∧
      headIsSpace "Next paragraph" = false ∧
      transformLines "u" ["   ", "Next paragraph"] = [".. _u:", "   ", "Next paragraph"] := by
  decide

/-- Claim C9 (amended): in the second pass, whenever a corrected line is
non-blank and indented and the following line is non-blank and not
indented, a blank line is inserted between them. -/
theorem smooth_insert_blank_after_indented (first second : String) (rest : List String)
    (h1 : hasNonSpace first = true) (h2 : headIsSpace first = true)
    (h3 : hasNonSpace second = true) (h4 : headIsSpace second = false) :
    smoothPairs first (second :: rest) =
      "" :: second ::
        ((if strContains second ".. parsed-literal::" then ["   :class: ipython-result"] else []) ++
          smoothPairs second rest) := by
  have hb : blankLineNeeded first second = true := by
    unfold blankLineNeeded
    rw [h1, h2, h3, h4]
    rfl
  simp [smoothPairs, hb]

/-- Claim C9 witness: between "    code" and "Next paragraph" a blank line
is inserted. -/
theorem smooth_insert_blank_after_indented_witness :
    smoothPairs "    code" ["Next paragraph"] = ["", "Next paragraph"] := by
  have h := smooth_insert_blank_after_indented "    code" "Next paragraph" []
    (by decide) (by decide) (by decide) (by decide)
  rw [h]
  decide

/-- Claim C10: the generated index lists the produced reference names in
sorted (lexicographic) order; the listing is the same for every enumeration
order of the names; given names "b", "a" the index lists "a" then "b". -/
theorem moduleReferenceIndex_lists_names_sorted :
    (∀ referenceNames : List String,
        List.Sorted (fun a b : String => a ≤ b) (pySorted referenceNames) ∧
          List.Perm (pySorted referenceNames) referenceNames)
      ∧ (∀ names1 names2 : List String, List.Perm names1 names2 →
          moduleReferenceIndexLines names1 = moduleReferenceIndexLines names2)
      ∧ moduleReferenceIndexLines ["b", "a"] =
          moduleReferenceIndexHeader ++ ["   a", "   b"] := by
  refine ⟨fun l => ⟨pySorted_sorted l, pySorted_perm l⟩, ?_, ?_⟩
  · intro names1 names2 hperm
    have hsortEq : pySorted names1 = pySorted names2 :=
      List.eq_of_perm_of_sorted
        ((pySorted_perm names1).trans (hperm.trans (pySorted_perm names2).symm))
        (pySorted_sorted names1) (pySorted_sorted names2)
    unfold moduleReferenceIndexLines
    rw [hsortEq]
  · have hconc : pySorted ["b", "a"] = ["a", "b"] := by
      have hperm : List.Perm (pySorted ["b", "a"]) ["a", "b"] :=
        (pySorted_perm _).trans (List.Perm.swap _ _ _)
      have hs2 : List.Sorted (fun a b : String => a ≤ b) ["a", "b"] := by
        refine List.sorted_cons.mpr ⟨?_, ?_⟩
        · intro b hb
          simp at hb
          subst hb
          rw [String.le_iff_toList_le]
          decide
        · simp [List.Sorted]
      exact List.eq_of_perm_of_sorted hperm (pySorted_sorted _) hs2
    unfold moduleReferenceIndexLines
    rw [hconc]
    decide
